import Mathlib

/-!
Shallow embedding of the pricing, fee, and yield-accounting core of the
oxedium_v3 program, translated from the Rust sources under
`programs/oxedium-program/src`.  Machine integers (`u64`, `u128`, `i64`,
`i128`) are modelled as `Nat`/`Int` with explicit range checks wherever the
source uses `checked_*` arithmetic; fallible code returns `Except`.
-/

namespace Oxedium

/-- Largest value of a `u64`. -/
def U64MAX : Nat := 2 ^ 64 - 1

/-- Largest value of a `u128`. -/
def U128MAX : Nat := 2 ^ 128 - 1

/-- Process-wide fixed-point scale constant (`utils::SCALE = 1_000_000_000_000`). -/
def SCALE : Nat := 1000000000000

/-- Error taxonomy from `utils/errors.rs` (`OxediumError`). -/
inductive OxediumError where
  | InvalidAdmin
  | InvalidStaker
  | InvalidVault
  | InvalidPrice
  | Overflow
  | InvalidPythAccount
  | HighSlippage
  | InsufficientLiquidity
  | OverflowInMul
  | OverflowInDiv
  | OverflowInSub
  | OverflowInAdd
  | OracleDataTooOld
  | OverflowInCast
  | FeeExceeds
  | InvalidDeviation
  | ZeroAmount
  | SameMint
  deriving DecidableEq, Repr

/-- Numeric state of a `Vault` account (`states/vault.rs`); the two `Pubkey`
fields (`token_mint`, `pyth_price_account`) are account identities with no
arithmetic content and are not modelled. -/
structure Vault where
  base_fee_bps : Nat
  protocol_fee_bps : Nat
  max_exit_fee_bps : Nat
  max_age_price : Nat
  initial_balance : Nat
  current_balance : Nat
  cumulative_yield_per_lp : Nat
  protocol_yield : Nat
  deriving DecidableEq, Repr

/-- Numeric state of a `Staker` account (`states/staker.rs`); the `owner` and
`vault` pubkeys are not modelled. -/
structure Staker where
  staked_amount : Nat
  last_cumulative_yield : Nat
  pending_claim : Nat
  deriving DecidableEq, Repr

/-- A Pyth `PriceFeedMessage` restricted to the fields the program reads:
`price : i64`, `conf : u64`, `exponent : i32`, `publish_time : i64`. -/
structure PriceFeedMessage where
  price : Int
  conf : Nat
  exponent : Int
  publish_time : Int
  deriving DecidableEq, Repr

/-- `u64::checked_mul`. -/
def checked_mul_u64 (a b : Nat) : Option Nat :=
  if a * b ≤ U64MAX then some (a * b) else none

/-- `u64::checked_add`. -/
def checked_add_u64 (a b : Nat) : Option Nat :=
  if a + b ≤ U64MAX then some (a + b) else none

/-- `checked_sub` on an unsigned integer (`u64` or `u128`): `none` on underflow. -/
def checked_sub_u (a b : Nat) : Option Nat :=
  if b ≤ a then some (a - b) else none

/-- `u128::checked_mul`. -/
def checked_mul_u128 (a b : Nat) : Option Nat :=
  if a * b ≤ U128MAX then some (a * b) else none

/-- `u128::checked_add`. -/
def checked_add_u128 (a b : Nat) : Option Nat :=
  if a + b ≤ U128MAX then some (a + b) else none

/-- The `fee` helper of `components/calculate_fee_amount.rs`: a basis-point
fee with floor division, clamped to at least 1 unit and at most `amount`. -/
def fee (amount bps : Nat) : Except OxediumError Nat :=
  if bps = 0 ∨ amount = 0 then Except.ok 0
  else
    match checked_mul_u64 amount bps with
    | none => Except.error OxediumError.Overflow
    | some m => Except.ok (min (max (m / 10000) 1) amount)

/-- `components/calculate_fee_amount.rs::calculate_fee_amount`. -/
def calculate_fee_amount (amount lp_fee_bps protocol_fee_bps : Nat) :
    Except OxediumError (Nat × Nat × Nat) :=
  match fee amount lp_fee_bps with
  | Except.error e => Except.error e
  | Except.ok lp_fee =>
    match fee amount protocol_fee_bps with
    | Except.error e => Except.error e
    | Except.ok protocol_fee =>
      match (checked_sub_u amount lp_fee).bind (fun v => checked_sub_u v protocol_fee) with
      | none => Except.error OxediumError.Overflow
      | some amount_after_fee => Except.ok (amount_after_fee, lp_fee, protocol_fee)

/-- `components/calculate_staker_yield.rs::calculate_staker_yield`:
`u128` checked subtraction returning 0 on underflow, `checked_mul` defaulting
to 0 on overflow, division by `SCALE`, and a saturating cast to `u64`. -/
def calculate_staker_yield (current_cumulative_yield staker_balance last_recorded_yield : Nat) :
    Nat :=
  if current_cumulative_yield < last_recorded_yield then 0
  else
    let delta_yield_per_lp := current_cumulative_yield - last_recorded_yield
    let total_yield :=
      if delta_yield_per_lp * staker_balance ≤ U128MAX then delta_yield_per_lp * staker_balance
      else 0
    min (total_yield / SCALE) U64MAX

/-- The `conf_to_bps` helper of `components/conf_fee_bps.rs`. -/
def conf_to_bps (price : Int) (conf : Nat) : Nat :=
  if price ≤ 0 ∨ conf = 0 then 0
  else min (conf * 10000 / price.toNat) 10000

/-- `components/conf_fee_bps.rs::conf_fee_bps`: the two legs are summed with
`u64::saturating_add` and capped at 10_000. -/
def conf_fee_bps (price_in : Int) (conf_in : Nat) (price_out : Int) (conf_out : Nat) : Nat :=
  min (min (conf_to_bps price_in conf_in + conf_to_bps price_out conf_out) U64MAX) 10000

/-- The `pow10` helper of `components/raw_amount_out.rs`: `10^exp` as `u128`,
rejecting exponents above 38. -/
def pow10 (exp : Nat) : Except OxediumError Nat :=
  if exp > 38 then Except.error OxediumError.OverflowInMul
  else Except.ok (10 ^ exp)

/-- `components/raw_amount_out.rs::apply_exponent_mul`:
`value * price * 10^exponent` with the exponent sign handled explicitly. -/
def apply_exponent_mul (value price : Nat) (exponent : Int) : Except OxediumError Nat :=
  if exponent < 0 then
    match checked_mul_u128 value price with
    | none => Except.error OxediumError.OverflowInMul
    | some m =>
      match pow10 exponent.natAbs with
      | Except.error e => Except.error e
      | Except.ok p => Except.ok (m / p)
  else
    match checked_mul_u128 value price with
    | none => Except.error OxediumError.OverflowInMul
    | some m =>
      match pow10 exponent.toNat with
      | Except.error e => Except.error e
      | Except.ok p =>
        match checked_mul_u128 m p with
        | none => Except.error OxediumError.OverflowInMul
        | some r => Except.ok r

/-- `components/raw_amount_out.rs::apply_exponent_div`:
`value / (price * 10^exponent)` with the exponent sign handled explicitly.
`checked_div` fails only on a zero divisor, yielding `OverflowInDiv`. -/
def apply_exponent_div (value price : Nat) (exponent : Int) : Except OxediumError Nat :=
  if exponent < 0 then
    match pow10 exponent.natAbs with
    | Except.error e => Except.error e
    | Except.ok p =>
      match checked_mul_u128 value p with
      | none => Except.error OxediumError.OverflowInMul
      | some m =>
        if price = 0 then Except.error OxediumError.OverflowInDiv
        else Except.ok (m / price)
  else
    if price = 0 then Except.error OxediumError.OverflowInDiv
    else
      match pow10 exponent.toNat with
      | Except.error e => Except.error e
      | Except.ok p => Except.ok (value / price / p)

/-- `components/raw_amount_out.rs::raw_amount_out`.  The model computes the
`u128` powers `10^decimals` exactly; this matches the source whenever the
decimal counts fit a `u128` power (in particular for all `decimals ≤ 38`). -/
def raw_amount_out (amount_in decimals_in decimals_out : Nat)
    (price_message_in price_message_out : PriceFeedMessage) : Except OxediumError Nat :=
  if price_message_in.price ≤ 0 ∨ price_message_out.price ≤ 0 then
    Except.error OxediumError.OverflowInSub
  else
    let price_in := price_message_in.price.toNat
    let price_out := price_message_out.price.toNat
    match checked_mul_u128 amount_in SCALE with
    | none => Except.error OxediumError.OverflowInMul
    | some m =>
      let amount_fp := m / 10 ^ decimals_in
      match apply_exponent_mul amount_fp price_in price_message_in.exponent with
      | Except.error e => Except.error e
      | Except.ok usd_fp =>
        match apply_exponent_div usd_fp price_out price_message_out.exponent with
        | Except.error e => Except.error e
        | Except.ok out_fp =>
          match checked_mul_u128 out_fp (10 ^ decimals_out) with
          | none => Except.error OxediumError.OverflowInMul
          | some m2 =>
            let out := m2 / SCALE
            if out ≤ U64MAX then Except.ok out
            else Except.error OxediumError.OverflowInCast

/-- `components/fees_setting.rs::fees_setting`: the imbalance fee curve.
Signed relative deviations are computed in `i128` with Rust's truncating
division (`Int.tdiv`); the final interpolation matches the source for
`base_fee_bps ≤ 10_000` (the u64 subtraction `10_000 - base_fee_bps` is
modelled with truncated Nat subtraction). -/
def fees_setting (vault_in vault_out : Vault) : Nat :=
  if vault_in.initial_balance = 0 ∨ vault_out.initial_balance = 0 then
    vault_out.base_fee_bps
  else
    let delta_in_bps : Int :=
      Int.tdiv (((vault_in.current_balance : Int) - (vault_in.initial_balance : Int)) * 10000)
        (vault_in.initial_balance : Int)
    let delta_out_bps : Int :=
      Int.tdiv (((vault_out.current_balance : Int) - (vault_out.initial_balance : Int)) * 10000)
        (vault_out.initial_balance : Int)
    if delta_in_bps ≤ delta_out_bps then vault_out.base_fee_bps
    else
      let deviation_bps := min delta_out_bps.natAbs 10000
      let curved_deviation_bps := deviation_bps * deviation_bps / 10000
      vault_out.base_fee_bps + (10000 - vault_out.base_fee_bps) * curved_deviation_bps / 10000

/-- Result record of `components/compute_swap_math.rs`. -/
structure SwapMathResult where
  swap_fee_bps : Nat
  raw_amount_out : Nat
  net_amount_out : Nat
  lp_fee_amount : Nat
  protocol_fee_amount : Nat
  deriving DecidableEq, Repr

/-- `components/compute_swap_math.rs::compute_swap_math`: the swap-quote
orchestrator.  `saturating_add` on the fee rates is modelled with an explicit
`min` against `U64MAX`. -/
def compute_swap_math (amount_in : Nat) (oracle_in oracle_out : PriceFeedMessage)
    (decimals_in decimals_out : Nat) (vault_in vault_out : Vault) :
    Except OxediumError SwapMathResult :=
  let swap_fee_bps := fees_setting vault_in vault_out
  let protocol_fee_bps := vault_out.protocol_fee_bps
  match raw_amount_out amount_in decimals_in decimals_out oracle_in oracle_out with
  | Except.error e => Except.error e
  | Except.ok raw_out =>
    let oracle_fee := conf_fee_bps oracle_in.price oracle_in.conf oracle_out.price oracle_out.conf
    let liquidity_fee_bps :=
      if vault_out.current_balance = 0 then 10000
      else
        let utilization_bps := min (raw_out * 10000 / vault_out.current_balance) 10000
        if utilization_bps ≤ 1000 then swap_fee_bps
        else
          let adj := (utilization_bps - 1000) * 10000 / 9000
          let curved := adj * adj / 10000
          swap_fee_bps + (10000 - swap_fee_bps) * curved / 10000
    let adjusted_swap_fee_bps := min (liquidity_fee_bps + oracle_fee) U64MAX
    if adjusted_swap_fee_bps + protocol_fee_bps > 10000 then
      Except.error OxediumError.FeeExceeds
    else
      match calculate_fee_amount raw_out adjusted_swap_fee_bps protocol_fee_bps with
      | Except.error e => Except.error e
      | Except.ok (after_fee, lp_fee, protocol_fee) =>
        if vault_out.current_balance < after_fee then
          Except.error OxediumError.InsufficientLiquidity
        else
          Except.ok ⟨adjusted_swap_fee_bps, raw_out, after_fee, lp_fee, protocol_fee⟩

/-- Reinterpretation of a `u64` bit pattern as an `i64` (Rust `as i64`). -/
def u64_as_i64 (n : Nat) : Int :=
  if n < 2 ^ 63 then (n : Int) else (n : Int) - 2 ^ 64

/-- Vault-state initialisation performed by `instructions/admin/init_vault.rs`
after the admin check (an account-identity concern left out of the model):
parameter validation followed by zeroing of balances and accumulators. -/
def init_vault_apply (base_fee_bps protocol_fee_bps max_age_price max_exit_fee_bps : Nat) :
    Except OxediumError Vault :=
  if base_fee_bps > 1000 then Except.error OxediumError.FeeExceeds
  else if protocol_fee_bps > 500 then Except.error OxediumError.FeeExceeds
  else if max_exit_fee_bps > 1000 then Except.error OxediumError.FeeExceeds
  else if max_age_price = 0 then Except.error OxediumError.InvalidDeviation
  else Except.ok ⟨base_fee_bps, protocol_fee_bps, max_exit_fee_bps, max_age_price, 0, 0, 0, 0⟩

/-- State transition of `instructions/staker/staking.rs::staking` on the vault
and staker records (the SPL token transfer is an external effect). -/
def staking_apply (vault : Vault) (staker : Staker) (amount : Nat) :
    Except OxediumError (Vault × Staker) :=
  if amount = 0 then Except.error OxediumError.ZeroAmount
  else
    let cumulative_yield := vault.cumulative_yield_per_lp
    let staker_balance := staker.staked_amount
    let last_cumulative_yield := staker.last_cumulative_yield
    match checked_add_u64 staker.pending_claim
        (calculate_staker_yield cumulative_yield staker_balance last_cumulative_yield) with
    | none => Except.error OxediumError.OverflowInAdd
    | some pending =>
      match checked_add_u64 staker.staked_amount amount with
      | none => Except.error OxediumError.OverflowInAdd
      | some staked =>
        match checked_add_u64 vault.initial_balance amount with
        | none => Except.error OxediumError.OverflowInAdd
        | some init =>
          match checked_add_u64 vault.current_balance amount with
          | none => Except.error OxediumError.OverflowInAdd
          | some cur =>
            Except.ok
              ({ vault with initial_balance := init, current_balance := cur },
               { staked_amount := staked,
                 last_cumulative_yield := cumulative_yield,
                 pending_claim := pending })

/-- The dynamic exit-fee curve of `instructions/staker/unstaking.rs`
(lines computing `health`, `deficit`, `curved`, `exit_fee_bps`):
`health = current*100/initial` (100 for an empty principal),
`deficit = 100 - health` saturating, `curved = deficit^2/100`,
`exit_fee_bps = max_exit_fee_bps * curved / 100`. -/
def exit_fee_bps_of (vault : Vault) : Nat :=
  let health :=
    if vault.initial_balance = 0 then 100
    else vault.current_balance * 100 / vault.initial_balance
  let deficit := 100 - health
  let curved := deficit * deficit / 100
  vault.max_exit_fee_bps * curved / 100

/-- The `unstake_amount` computation of `unstaking.rs`: the requested amount
reduced by the exit fee through the fee primitive when the fee rate is
positive. -/
def unstake_amount_of (vault : Vault) (amount : Nat) : Except OxediumError Nat :=
  if exit_fee_bps_of vault > 0 then
    match calculate_fee_amount amount (exit_fee_bps_of vault) 0 with
    | Except.error e => Except.error e
    | Except.ok (after_fee, _, _) => Except.ok after_fee
  else Except.ok amount

/-- State transition of `instructions/staker/unstaking.rs::unstaking` on the
vault and staker records; the third component of the result is the amount
transferred to the exiting staker (`unstake_amount`). -/
def unstake_apply (vault : Vault) (staker : Staker) (amount : Nat) :
    Except OxediumError (Vault × Staker × Nat) :=
  if amount = 0 then Except.error OxediumError.ZeroAmount
  else if staker.staked_amount < amount then Except.error OxediumError.Overflow
  else
    let cumulative_yield := vault.cumulative_yield_per_lp
    let last_cumulative_yield := staker.last_cumulative_yield
    match unstake_amount_of vault amount with
    | Except.error e => Except.error e
    | Except.ok unstake_amount =>
      match checked_add_u64 staker.pending_claim
          (calculate_staker_yield cumulative_yield staker.staked_amount last_cumulative_yield) with
      | none => Except.error OxediumError.OverflowInAdd
      | some pending =>
        match checked_sub_u staker.staked_amount amount with
        | none => Except.error OxediumError.OverflowInSub
        | some staked =>
          match checked_sub_u vault.initial_balance amount with
          | none => Except.error OxediumError.OverflowInSub
          | some init =>
            match checked_sub_u vault.current_balance unstake_amount with
            | none => Except.error OxediumError.OverflowInSub
            | some cur =>
              let exit_fee := amount - unstake_amount
              match
                (if exit_fee > 0 ∧ init > 0 then
                  checked_add_u128 vault.cumulative_yield_per_lp (exit_fee * SCALE / init)
                else some vault.cumulative_yield_per_lp) with
              | none => Except.error OxediumError.OverflowInAdd
              | some cum =>
                Except.ok
                  ({ vault with
                      initial_balance := init,
                      current_balance := cur,
                      cumulative_yield_per_lp := cum },
                   { staked_amount := staked,
                     last_cumulative_yield := cumulative_yield,
                     pending_claim := pending },
                   unstake_amount)

/-- State transition of `instructions/staker/claim.rs::claim`; the vault is
read but never written by the source, so it is returned unchanged.  The third
component is the amount transferred to the staker. -/
def claim_apply (vault : Vault) (staker : Staker) :
    Except OxediumError (Vault × Staker × Nat) :=
  let cumulative_yield_per_lp := vault.cumulative_yield_per_lp
  let staker_yield :=
    calculate_staker_yield cumulative_yield_per_lp staker.staked_amount
      staker.last_cumulative_yield
  match checked_add_u64 staker_yield staker.pending_claim with
  | none => Except.error OxediumError.OverflowInAdd
  | some amount =>
    if amount = 0 then Except.error OxediumError.ZeroAmount
    else
      Except.ok
        (vault,
         { staker with last_cumulative_yield := cumulative_yield_per_lp, pending_claim := 0 },
         amount)

/-- State transition of `instructions/admin/collect.rs::collect` on the vault;
the second component is the protocol yield transferred to the admin. -/
def collect_apply (vault : Vault) : Except OxediumError (Vault × Nat) :=
  let protocol_yield := vault.protocol_yield
  match checked_sub_u vault.current_balance protocol_yield with
  | none => Except.error OxediumError.OverflowInSub
  | some cur =>
    Except.ok ({ vault with current_balance := cur, protocol_yield := 0 }, protocol_yield)

/-- The guarded accumulator update of `swap.rs` (C-02 comment in the source):
the LP fee is folded into `cumulative_yield_per_lp` as
`lp_fee * SCALE / initial_balance` only when the output vault has LP
principal; otherwise the accumulator is left unchanged. -/
def new_cum_of (vault_out : Vault) (lp_fee_amount : Nat) : Option Nat :=
  if vault_out.initial_balance > 0 then
    checked_add_u128 vault_out.cumulative_yield_per_lp
      (lp_fee_amount * SCALE / vault_out.initial_balance)
  else some vault_out.cumulative_yield_per_lp

/-- State transition of `instructions/trader/swap.rs::swap` on the two vault
records: input validation, oracle freshness checks against the supplied clock
timestamp, the swap-math computation, the slippage check, and the balance and
yield updates.  Pyth account-identity checks and the SPL token transfers are
external effects left out of the model. -/
def swap_apply (amount_in minimum_out : Nat) (current_timestamp : Int)
    (oracle_in oracle_out : PriceFeedMessage) (decimals_in decimals_out : Nat)
    (vault_in vault_out : Vault) : Except OxediumError (Vault × Vault) :=
  if amount_in = 0 then Except.error OxediumError.ZeroAmount
  else if minimum_out = 0 then Except.error OxediumError.HighSlippage
  else if oracle_in.publish_time > current_timestamp ∨
      oracle_out.publish_time > current_timestamp then
    Except.error OxediumError.OracleDataTooOld
  else if current_timestamp - oracle_in.publish_time > u64_as_i64 vault_in.max_age_price then
    Except.error OxediumError.OracleDataTooOld
  else if current_timestamp - oracle_out.publish_time > u64_as_i64 vault_out.max_age_price then
    Except.error OxediumError.OracleDataTooOld
  else
    match compute_swap_math amount_in oracle_in oracle_out decimals_in decimals_out
        vault_in vault_out with
    | Except.error e => Except.error e
    | Except.ok result =>
      if result.net_amount_out < minimum_out then Except.error OxediumError.HighSlippage
      else
        match checked_add_u64 vault_in.current_balance amount_in with
        | none => Except.error OxediumError.OverflowInAdd
        | some cur_in =>
          match checked_sub_u vault_out.current_balance result.net_amount_out with
          | none => Except.error OxediumError.OverflowInSub
          | some cur_out =>
            match new_cum_of vault_out result.lp_fee_amount with
            | none => Except.error OxediumError.OverflowInAdd
            | some cum =>
              match checked_add_u64 vault_out.protocol_yield result.protocol_fee_amount with
              | none => Except.error OxediumError.OverflowInAdd
              | some py =>
                Except.ok
                  ({ vault_in with current_balance := cur_in },
                   { vault_out with
                      current_balance := cur_out,
                      cumulative_yield_per_lp := cum,
                      protocol_yield := py })

/-- Pure value of the `fee` helper when its checked multiplication succeeds:
`floor(amount * bps / 10_000)` clamped to at least 1 (for positive `bps` and
`amount`) and at most `amount`. -/
def fee_leg (amount bps : Nat) : Nat :=
  if bps = 0 ∨ amount = 0 then 0 else min (max (amount * bps / 10000) 1) amount

/-- Concrete oracle observation used by witnesses: price 1, exponent 0. -/
def wOracle : PriceFeedMessage := ⟨1, 0, 0, 0⟩

/-- Concrete balanced input vault used by witnesses. -/
def wVaultIn : Vault := ⟨30, 0, 0, 1, 1000000, 1000000, 0, 0⟩

/-- Concrete balanced output vault used by witnesses. -/
def wVaultOut : Vault := ⟨30, 10, 0, 1, 1000000, 1000000, 0, 0⟩

/-- Concrete output vault with an empty current balance. -/
def wVaultOutEmpty : Vault := ⟨30, 10, 0, 1, 1000000, 0, 0, 0⟩

/-- The distressed vault of the spec's exit-fee scenario: health 44%
(current 8_000_000_000 of initial 18_000_000_000), `max_exit_fee_bps` 10_000. -/
def c7Vault : Vault := ⟨30, 5, 10000, 1, 18000000000, 8000000000, 0, 0⟩

/-- A staker holding 1_000_000_000 units of principal in `c7Vault`. -/
def c7Staker : Staker := ⟨1000000000, 0, 0⟩

lemma fee_ok (amount bps : Nat) (h : amount * bps ≤ U64MAX) :
    fee amount bps = Except.ok (fee_leg amount bps) := by
  by_cases hc : bps = 0 ∨ amount = 0
  · simp [fee, fee_leg, hc]
  · simp [fee, fee_leg, hc, checked_mul_u64, h]

lemma fee_leg_le (amount bps : Nat) : fee_leg amount bps ≤ amount := by
  unfold fee_leg
  split
  · omega
  · omega

lemma fee_legs_le (amount lp p : Nat) (hbps : lp + p ≤ 10000)
    (hx : ¬(amount = 1 ∧ 0 < lp ∧ 0 < p)) :
    fee_leg amount lp + fee_leg amount p ≤ amount := by
  unfold fee_leg
  by_cases ha : amount = 0
  · simp [ha]
  by_cases hl : lp = 0
  · have h2 := fee_leg_le amount p
    unfold fee_leg at h2
    simp [hl]
    split <;> omega
  by_cases hp : p = 0
  · have h1 := fee_leg_le amount lp
    unfold fee_leg at h1
    simp [hp]
    split <;> omega
  have hlpos : 0 < lp := Nat.pos_of_ne_zero hl
  have hppos : 0 < p := Nat.pos_of_ne_zero hp
  have ha2 : 2 ≤ amount := by omega
  have h1 : amount ≤ amount * lp := Nat.le_mul_of_pos_right _ hlpos
  have h2 : amount ≤ amount * p := Nat.le_mul_of_pos_right _ hppos
  have h3 : amount * lp + amount * p ≤ 10000 * amount := by
    calc amount * lp + amount * p = amount * (lp + p) := (Nat.mul_add _ _ _).symm
    _ ≤ amount * 10000 := Nat.mul_le_mul_left _ hbps
    _ = 10000 * amount := Nat.mul_comm _ _
  simp only [hl, hp, ha, or_self, if_false, or_false]
  omega

/-- C1 (counterexample): with `amount = 1` and both fee rates positive, each
leg clamps up to 1 unit, the two 1-unit fees exceed the amount, and
`calculate_fee_amount` fails with `Overflow` instead of returning `Ok`,
although `lp_fee_bps + protocol_fee_bps = 2 ≤ 10_000`. -/
theorem C1_counterexample :
    1 + 1 ≤ 10000 ∧
    calculate_fee_amount 1 1 1 = Except.error OxediumError.Overflow :=
  ⟨by decide, rfl⟩

/-- C1 (amended): for every `amount` and fee rates with
`lp_fee_bps + protocol_fee_bps ≤ 10_000`, provided the two checked
multiplications `amount * bps` fit a `u64` and the case `amount = 1` with both
rates positive is excluded, `calculate_fee_amount` returns
`Ok((amount_after_fee, lp_fee, protocol_fee))` where each fee leg is
`floor(amount * bps / 10_000)` clamped to at least 1 unit (when `bps > 0` and
`amount > 0`) and at most `amount`, and
`amount_after_fee + lp_fee + protocol_fee = amount`. -/
theorem C1_fee_conservation (amount lp_fee_bps protocol_fee_bps : Nat)
    (hbps : lp_fee_bps + protocol_fee_bps ≤ 10000)
    (hm1 : amount * lp_fee_bps ≤ U64MAX)
    (hm2 : amount * protocol_fee_bps ≤ U64MAX)
    (hx : ¬(amount = 1 ∧ 0 < lp_fee_bps ∧ 0 < protocol_fee_bps)) :
    calculate_fee_amount amount lp_fee_bps protocol_fee_bps =
      Except.ok (amount - fee_leg amount lp_fee_bps - fee_leg amount protocol_fee_bps,
        fee_leg amount lp_fee_bps, fee_leg amount protocol_fee_bps) ∧
    (amount - fee_leg amount lp_fee_bps - fee_leg amount protocol_fee_bps)
      + fee_leg amount lp_fee_bps + fee_leg amount protocol_fee_bps = amount := by
  have hle := fee_legs_le amount lp_fee_bps protocol_fee_bps hbps hx
  have hl1 := fee_leg_le amount lp_fee_bps
  constructor
  · unfold calculate_fee_amount
    rw [fee_ok _ _ hm1, fee_ok _ _ hm2]
    simp only [checked_sub_u, hl1, if_pos, Option.bind]
    rw [if_pos (by omega : fee_leg amount protocol_fee_bps ≤ amount - fee_leg amount lp_fee_bps)]
  · omega

/-- C1 witness: the theorem applied at `amount = 10_000`, `lp = 30 bps`,
`protocol = 10 bps`. -/
theorem C1_fee_conservation_witness :
    calculate_fee_amount 10000 30 10 =
      Except.ok (10000 - fee_leg 10000 30 - fee_leg 10000 10,
        fee_leg 10000 30, fee_leg 10000 10) ∧
    (10000 - fee_leg 10000 30 - fee_leg 10000 10) + fee_leg 10000 30 + fee_leg 10000 10
      = 10000 :=
  C1_fee_conservation 10000 30 10 (by decide) (by decide) (by decide) (by decide)

/-- C9: for all accumulator values `current ≤ last` (including equality) and
every staker balance, `calculate_staker_yield` is a total function returning
exactly 0: no accumulator movement yields no yield, and an accumulator behind
the checkpoint is handled defensively. -/
theorem C9_stale_accumulator_zero_yield (current balance last : Nat)
    (h : current ≤ last) : calculate_staker_yield current balance last = 0 := by
  unfold calculate_staker_yield
  rcases Nat.lt_or_ge current last with hlt | hge
  · simp [hlt]
  · have heq : current = last := Nat.le_antisymm h hge
    subst heq
    simp

/-- C9 witness: the theorem at `current = 5, balance = 3, last = 7` and at the
equal-accumulator point `current = last = 5`. -/
theorem C9_stale_accumulator_zero_yield_witness :
    calculate_staker_yield 5 3 7 = 0 ∧ calculate_staker_yield 5 3 5 = 0 :=
  ⟨C9_stale_accumulator_zero_yield 5 3 7 (by decide),
   C9_stale_accumulator_zero_yield 5 3 5 (by decide)⟩

lemma conf_to_bps_mono (price : Int) (conf conf' : Nat) (h : conf ≤ conf') :
    conf_to_bps price conf ≤ conf_to_bps price conf' := by
  unfold conf_to_bps
  by_cases hp : price ≤ 0
  · simp [hp]
  · by_cases hc : conf = 0
    · simp [hc]
    · have hc' : ¬conf' = 0 := by omega
      simp only [hp, hc, hc', or_self, if_false, false_or, if_neg, not_false_iff]
      exact min_le_min (Nat.div_le_div_right (Nat.mul_le_mul_right _ h)) le_rfl

/-- C8: `conf_fee_bps` is monotonic non-decreasing in each confidence input
(with the other three arguments fixed) and never exceeds 10_000. -/
theorem C8_conf_fee_monotone_capped (price_in price_out : Int)
    (conf_in conf_in' conf_out conf_out' : Nat)
    (h_in : conf_in ≤ conf_in') (h_out : conf_out ≤ conf_out') :
    conf_fee_bps price_in conf_in price_out conf_out ≤
      conf_fee_bps price_in conf_in' price_out conf_out ∧
    conf_fee_bps price_in conf_in price_out conf_out ≤
      conf_fee_bps price_in conf_in price_out conf_out' ∧
    conf_fee_bps price_in conf_in price_out conf_out ≤ 10000 := by
  refine ⟨?_, ?_, min_le_right _ _⟩
  · exact min_le_min (min_le_min
      (Nat.add_le_add_right (conf_to_bps_mono price_in conf_in conf_in' h_in) _) le_rfl) le_rfl
  · exact min_le_min (min_le_min
      (Nat.add_le_add_left (conf_to_bps_mono price_out conf_out conf_out' h_out) _) le_rfl) le_rfl

/-- C8 witness: the theorem applied at prices 100/1 with confidences
raised from 1 to 3 on each leg. -/
theorem C8_conf_fee_monotone_capped_witness :
    conf_fee_bps 100 1 1 1 ≤ conf_fee_bps 100 3 1 1 ∧
    conf_fee_bps 100 1 1 1 ≤ conf_fee_bps 100 1 1 3 ∧
    conf_fee_bps 100 1 1 1 ≤ 10000 :=
  C8_conf_fee_monotone_capped 100 1 1 3 1 3 (by decide) (by decide)

/-- C4: the price-validity guard of `raw_amount_out` rejects a non-positive
input price, but with `OxediumError::OverflowInSub` rather than the
`InvalidPrice` variant the specification names (that variant exists in the
error enum and is constructed nowhere in the program). -/
theorem C4_price_guard_wrong_error :
    raw_amount_out 1 0 0 ⟨0, 0, 0, 0⟩ ⟨1, 0, 0, 0⟩ =
      Except.error OxediumError.OverflowInSub ∧
    OxediumError.OverflowInSub ≠ OxediumError.InvalidPrice :=
  ⟨rfl, by decide⟩

/-- C3 (counterexample): with `amount_in = 1`, nine decimals on both legs and
the identical observation `price = 7, exponent = -8` for input and output, the
fixed-point intermediate `amount_fp * price / 10^8` floors to 0, so
`raw_amount_out` returns `Ok 0`, not the identity `Ok 1`. -/
theorem C3_counterexample :
    raw_amount_out 1 9 9 ⟨7, 0, -8, 0⟩ ⟨7, 0, -8, 0⟩ = Except.ok 0 ∧
    (0 : Nat) ≠ 1 :=
  ⟨rfl, by decide⟩

/-- C7 (counterexample): on the spec's distressed vault (health 44%,
`max_exit_fee_bps = 10_000`), unstaking 1_000_000_000 pays out 690_000_000,
not the 980_000_000 the claim states: the quadratic curve gives
`deficit = 56`, `curved = 31`, `exit_fee_bps = 3_100`, not 200 bps. -/
theorem C7_counterexample :
    Except.map (fun r => r.2.2) (unstake_apply c7Vault c7Staker 1000000000) =
      Except.ok 690000000 ∧
    (690000000 : Nat) ≠ 980000000 :=
  ⟨rfl, by decide⟩

/-- C7 (amended): on the vault with `current = 8_000_000_000`,
`initial = 18_000_000_000` and `max_exit_fee_bps = 10_000`, unstaking
1_000_000_000 charges an exit fee of exactly 310_000_000
(`health = 44`, `deficit = 56`, `curved = 31`, `exit_fee_bps = 3_100`) and
pays out exactly 690_000_000; the full requested amount leaves
`initial_balance`, only the net amount leaves `current_balance`, and the fee
is credited to `cumulative_yield_per_lp` as
`floor(310_000_000 * SCALE / 17_000_000_000) = 18_235_294_117`. -/
theorem C7_exit_fee_scenario :
    unstake_apply c7Vault c7Staker 1000000000 =
      Except.ok (⟨30, 5, 10000, 1, 17000000000, 7310000000, 18235294117, 0⟩,
        ⟨0, 0, 0⟩, 690000000) ∧
    1000000000 - 690000000 = 310000000 :=
  ⟨rfl, rfl⟩

lemma checked_sub_u_some (a b c : Nat) (h : checked_sub_u a b = some c) :
    b ≤ a ∧ c = a - b := by
  unfold checked_sub_u at h
  split at h
  · exact ⟨by assumption, (Option.some.inj h).symm⟩
  · exact Option.noConfusion h

lemma checked_add_u64_some (a b c : Nat) (h : checked_add_u64 a b = some c) :
    c = a + b := by
  unfold checked_add_u64 at h
  split at h
  · exact (Option.some.inj h).symm
  · exact Option.noConfusion h

lemma checked_add_u128_some (a b c : Nat) (h : checked_add_u128 a b = some c) :
    c = a + b := by
  unfold checked_add_u128 at h
  split at h
  · exact (Option.some.inj h).symm
  · exact Option.noConfusion h

lemma calculate_fee_amount_ok (amount l p a lf pf : Nat)
    (h : calculate_fee_amount amount l p = Except.ok (a, lf, pf)) :
    lf + pf ≤ amount ∧ a = amount - lf - pf := by
  unfold calculate_fee_amount at h
  split at h
  · exact Except.noConfusion h
  rename_i lf1 hf1
  split at h
  · exact Except.noConfusion h
  rename_i pf1 hf2
  split at h
  · exact Except.noConfusion h
  rename_i v2 hbind
  injection h with h
  injection h with h1 h
  injection h with h2 h3
  cases hs1 : checked_sub_u amount lf1 with
  | none => rw [hs1] at hbind; exact Option.noConfusion hbind
  | some v1 =>
    rw [hs1] at hbind
    have hbind2 : checked_sub_u v1 pf1 = some v2 := hbind
    obtain ⟨hb1, he1⟩ := checked_sub_u_some _ _ _ hs1
    obtain ⟨hb2, he2⟩ := checked_sub_u_some _ _ _ hbind2
    omega

lemma unstake_amount_of_ok (v : Vault) (amount u : Nat)
    (h : unstake_amount_of v amount = Except.ok u) : u ≤ amount := by
  unfold unstake_amount_of at h
  split at h
  · cases hcf : calculate_fee_amount amount (exit_fee_bps_of v) 0 with
    | error e => rw [hcf] at h; exact Except.noConfusion h
    | ok t =>
      obtain ⟨after, lf, pf⟩ := t
      rw [hcf] at h
      obtain ⟨hb, he⟩ := calculate_fee_amount_ok _ _ _ _ _ _ hcf
      have := Except.ok.inj h
      omega
  · have := Except.ok.inj h
    omega

/-- Full inversion of a successful `unstake_apply`: the relations between the
pre- and post-state vault fields and the payout. -/
lemma unstake_apply_ok (v : Vault) (s : Staker) (amount : Nat)
    (v' : Vault) (s' : Staker) (payout : Nat)
    (h : unstake_apply v s amount = Except.ok (v', s', payout)) :
    amount ≤ v.initial_balance ∧
    v'.initial_balance = v.initial_balance - amount ∧
    payout ≤ amount ∧
    payout ≤ v.current_balance ∧
    v'.current_balance = v.current_balance - payout ∧
    (0 < v'.initial_balance →
      v'.cumulative_yield_per_lp =
        v.cumulative_yield_per_lp + (amount - payout) * SCALE / v'.initial_balance) ∧
    (v'.initial_balance = 0 →
      v'.cumulative_yield_per_lp = v.cumulative_yield_per_lp) := by
  simp only [unstake_apply] at h
  split at h
  · exact Except.noConfusion h
  split at h
  · exact Except.noConfusion h
  split at h
  · exact Except.noConfusion h
  rename_i u hua
  have hu := unstake_amount_of_ok v amount u hua
  split at h
  · exact Except.noConfusion h
  rename_i pending hp1
  split at h
  · exact Except.noConfusion h
  rename_i staked hs1
  split at h
  · exact Except.noConfusion h
  rename_i init hi1
  split at h
  · exact Except.noConfusion h
  rename_i cur hc1
  obtain ⟨hib, hie⟩ := checked_sub_u_some _ _ _ hi1
  obtain ⟨hcb, hce⟩ := checked_sub_u_some _ _ _ hc1
  by_cases hcond : amount - u > 0 ∧ init > 0
  · rw [if_pos hcond] at h
    split at h
    · exact Except.noConfusion h
    rename_i cum hcum
    have hcume := checked_add_u128_some _ _ _ hcum
    injection h with h
    injection h with hv h
    injection h with hst hpay
    subst hv; subst hpay
    refine ⟨hib, hie, hu, hcb, hce, ?_, ?_⟩
    · intro hpos
      show cum = v.cumulative_yield_per_lp + (amount - u) * SCALE / init
      exact hcume
    · intro hz
      have hz2 : init = 0 := hz
      omega
  · rw [if_neg hcond] at h
    have h2 : (Except.ok
        (({ base_fee_bps := v.base_fee_bps, protocol_fee_bps := v.protocol_fee_bps,
            max_exit_fee_bps := v.max_exit_fee_bps, max_age_price := v.max_age_price,
            initial_balance := init, current_balance := cur,
            cumulative_yield_per_lp := v.cumulative_yield_per_lp,
            protocol_yield := v.protocol_yield } : Vault),
          ({ staked_amount := staked, last_cumulative_yield := v.cumulative_yield_per_lp,
             pending_claim := pending } : Staker), u) :
        Except OxediumError (Vault × Staker × Nat)) = Except.ok (v', s', payout) := h
    injection h2 with h2
    injection h2 with hv h2
    injection h2 with hst hpay
    subst hv; subst hpay
    refine ⟨hib, hie, hu, hcb, hce, ?_, fun hz => rfl⟩
    intro hpos
    have hpos2 : 0 < init := hpos
    show v.cumulative_yield_per_lp =
      v.cumulative_yield_per_lp + (amount - u) * SCALE / init
    have hzero : amount - u = 0 := by omega
    rw [hzero]
    simp

lemma new_cum_of_some (v : Vault) (lp c : Nat) (h : new_cum_of v lp = some c) :
    c = v.cumulative_yield_per_lp +
      (if 0 < v.initial_balance then lp * SCALE / v.initial_balance else 0) := by
  unfold new_cum_of at h
  split at h
  · rename_i hpos
    rw [if_pos hpos]
    exact checked_add_u128_some _ _ _ h
  · rename_i hneg
    rw [if_neg hneg]
    have h2 := Option.some.inj h
    omega

/-- Full inversion of a successful `swap_apply`: the input vault changes only
in `current_balance` (by the full gross input amount), and the output vault
receives the quote's balance, accumulator and protocol-yield updates. -/
lemma swap_apply_ok (a m : Nat) (t : Int) (oin oout : PriceFeedMessage)
    (din dout : Nat) (vin vout vin' vout' : Vault)
    (h : swap_apply a m t oin oout din dout vin vout = Except.ok (vin', vout')) :
    vin' = { vin with current_balance := vin.current_balance + a } ∧
    ∃ r : SwapMathResult,
      compute_swap_math a oin oout din dout vin vout = Except.ok r ∧
      vout' = { vout with
        current_balance := vout.current_balance - r.net_amount_out,
        cumulative_yield_per_lp := vout.cumulative_yield_per_lp +
          (if 0 < vout.initial_balance then
            r.lp_fee_amount * SCALE / vout.initial_balance else 0),
        protocol_yield := vout.protocol_yield + r.protocol_fee_amount } ∧
      r.net_amount_out ≤ vout.current_balance := by
  simp only [swap_apply] at h
  split at h
  · exact Except.noConfusion h
  split at h
  · exact Except.noConfusion h
  split at h
  · exact Except.noConfusion h
  split at h
  · exact Except.noConfusion h
  split at h
  · exact Except.noConfusion h
  split at h
  · exact Except.noConfusion h
  rename_i r hr
  split at h
  · exact Except.noConfusion h
  split at h
  · exact Except.noConfusion h
  rename_i cur_in hci
  split at h
  · exact Except.noConfusion h
  rename_i cur_out hco
  split at h
  · exact Except.noConfusion h
  rename_i cum hcum
  split at h
  · exact Except.noConfusion h
  rename_i py hpy
  injection h with h
  injection h with hvin hvout
  have hci2 := checked_add_u64_some _ _ _ hci
  obtain ⟨hcob, hcoe⟩ := checked_sub_u_some _ _ _ hco
  have hcume := new_cum_of_some _ _ _ hcum
  have hpye := checked_add_u64_some _ _ _ hpy
  constructor
  · rw [← hvin, hci2]
  · refine ⟨r, hr, ?_, hcob⟩
    rw [← hvout, hcoe, hcume, hpye]

lemma staking_apply_cum (v : Vault) (s : Staker) (a : Nat) (v' : Vault) (s' : Staker)
    (h : staking_apply v s a = Except.ok (v', s')) :
    v'.cumulative_yield_per_lp = v.cumulative_yield_per_lp := by
  simp only [staking_apply] at h
  split at h
  · exact Except.noConfusion h
  split at h
  · exact Except.noConfusion h
  split at h
  · exact Except.noConfusion h
  split at h
  · exact Except.noConfusion h
  split at h
  · exact Except.noConfusion h
  injection h with h
  injection h with hv hs
  rw [← hv]

lemma init_vault_apply_cum (b p ma me : Nat) (v : Vault)
    (h : init_vault_apply b p ma me = Except.ok v) :
    v.cumulative_yield_per_lp = 0 := by
  unfold init_vault_apply at h
  split at h
  · exact Except.noConfusion h
  split at h
  · exact Except.noConfusion h
  split at h
  · exact Except.noConfusion h
  split at h
  · exact Except.noConfusion h
  injection h with h
  rw [← h]

lemma claim_apply_cum (v : Vault) (s : Staker) (out : Vault × Staker × Nat)
    (h : claim_apply v s = Except.ok out) :
    out.1.cumulative_yield_per_lp = v.cumulative_yield_per_lp := by
  simp only [claim_apply] at h
  split at h
  · exact Except.noConfusion h
  split at h
  · exact Except.noConfusion h
  injection h with h
  rw [← h]

lemma collect_apply_cum (v : Vault) (out : Vault × Nat)
    (h : collect_apply v = Except.ok out) :
    out.1.cumulative_yield_per_lp = v.cumulative_yield_per_lp := by
  simp only [collect_apply] at h
  split at h
  · exact Except.noConfusion h
  injection h with h
  rw [← h]

/-- C5: for every successful unstaking, `initial_balance` decreases by the
full requested amount while `current_balance` decreases only by the net
post-fee payout; when the remaining `initial_balance` is positive, the exit
fee is credited into `cumulative_yield_per_lp` as
`floor(exit_fee * SCALE / remaining_initial_balance)`, and when no principal
remains the accumulator is left unchanged. -/
theorem C5_unstake_fee_distribution (v : Vault) (s : Staker) (amount : Nat)
    (v' : Vault) (s' : Staker) (payout : Nat)
    (h : unstake_apply v s amount = Except.ok (v', s', payout)) :
    amount ≤ v.initial_balance ∧
    v'.initial_balance = v.initial_balance - amount ∧
    payout ≤ amount ∧
    payout ≤ v.current_balance ∧
    v'.current_balance = v.current_balance - payout ∧
    (0 < v'.initial_balance →
      v'.cumulative_yield_per_lp =
        v.cumulative_yield_per_lp + (amount - payout) * SCALE / v'.initial_balance) ∧
    (v'.initial_balance = 0 →
      v'.cumulative_yield_per_lp = v.cumulative_yield_per_lp) :=
  unstake_apply_ok v s amount v' s' payout h

/-- C5 witness: the theorem applied to a healthy vault
(`initial = current = 100`, accumulator 7) unstaking 50 with no exit fee. -/
theorem C5_unstake_fee_distribution_witness :
    50 ≤ 100 ∧ (50 : Nat) = 100 - 50 ∧ 50 ≤ 50 ∧ 50 ≤ 100 ∧ (50 : Nat) = 100 - 50 ∧
    (0 < 50 → (7 : Nat) = 7 + (50 - 50) * SCALE / 50) ∧
    ((50 : Nat) = 0 → (7 : Nat) = 7) :=
  C5_unstake_fee_distribution ⟨30, 5, 10000, 1, 100, 100, 7, 0⟩ ⟨50, 7, 0⟩ 50
    ⟨30, 5, 10000, 1, 50, 50, 7, 0⟩ ⟨0, 7, 0⟩ 50 rfl

/-- C2: across every modelled vault operation, `cumulative_yield_per_lp`
never decreases on success, and vault initialisation starts it at 0. -/
theorem C2_accumulator_monotone :
    (∀ b p ma me v, init_vault_apply b p ma me = Except.ok v →
      v.cumulative_yield_per_lp = 0) ∧
    (∀ v s a v' s', staking_apply v s a = Except.ok (v', s') →
      v.cumulative_yield_per_lp ≤ v'.cumulative_yield_per_lp) ∧
    (∀ v s a v' s' payout, unstake_apply v s a = Except.ok (v', s', payout) →
      v.cumulative_yield_per_lp ≤ v'.cumulative_yield_per_lp) ∧
    (∀ a m t oin oout din dout vin vout vin' vout',
      swap_apply a m t oin oout din dout vin vout = Except.ok (vin', vout') →
      vin.cumulative_yield_per_lp ≤ vin'.cumulative_yield_per_lp ∧
      vout.cumulative_yield_per_lp ≤ vout'.cumulative_yield_per_lp) ∧
    (∀ v s out, claim_apply v s = Except.ok out →
      v.cumulative_yield_per_lp ≤ out.1.cumulative_yield_per_lp) ∧
    (∀ v out, collect_apply v = Except.ok out →
      v.cumulative_yield_per_lp ≤ out.1.cumulative_yield_per_lp) := by
  refine ⟨?_, ?_, ?_, ?_, ?_, ?_⟩
  · intro b p ma me v h
    exact init_vault_apply_cum b p ma me v h
  · intro v s a v' s' h
    rw [staking_apply_cum v s a v' s' h]
  · intro v s a v' s' payout h
    obtain ⟨-, -, -, -, -, hpos, hzero⟩ := unstake_apply_ok v s a v' s' payout h
    rcases Nat.eq_zero_or_pos v'.initial_balance with hz | hp
    · rw [hzero hz]
    · rw [hpos hp]
      exact Nat.le_add_right _ _
  · intro a m t oin oout din dout vin vout vin' vout' h
    obtain ⟨hvin, r, hr, hvout, -⟩ := swap_apply_ok a m t oin oout din dout vin vout vin' vout' h
    constructor
    · rw [hvin]
    · rw [hvout]
      exact Nat.le_add_right _ _
  · intro v s out h
    rw [claim_apply_cum v s out h]
  · intro v out h
    rw [collect_apply_cum v out h]

/-- C2 witness: each clause of the theorem applied to a concrete successful
operation. -/
theorem C2_accumulator_monotone_witness :
    ((⟨30, 10, 100, 86400, 0, 0, 0, 0⟩ : Vault).cumulative_yield_per_lp = 0) ∧
    ((⟨30, 0, 0, 1, 100, 100, 5, 0⟩ : Vault).cumulative_yield_per_lp ≤
      (⟨30, 0, 0, 1, 150, 150, 5, 0⟩ : Vault).cumulative_yield_per_lp) ∧
    ((⟨30, 5, 10000, 1, 100, 100, 7, 0⟩ : Vault).cumulative_yield_per_lp ≤
      (⟨30, 5, 10000, 1, 50, 50, 7, 0⟩ : Vault).cumulative_yield_per_lp) ∧
    (wVaultIn.cumulative_yield_per_lp ≤
      (⟨30, 0, 0, 1, 1000000, 1001000, 0, 0⟩ : Vault).cumulative_yield_per_lp ∧
     wVaultOut.cumulative_yield_per_lp ≤
      (⟨30, 10, 0, 1, 1000000, 999004, 3000000, 1⟩ : Vault).cumulative_yield_per_lp) ∧
    ((⟨30, 0, 0, 1, 100, 100, 6, 0⟩ : Vault).cumulative_yield_per_lp ≤
      ((⟨30, 0, 0, 1, 100, 100, 6, 0⟩ : Vault), (⟨10, 6, 0⟩ : Staker),
        (4 : Nat)).1.cumulative_yield_per_lp) ∧
    ((⟨30, 0, 0, 1, 100, 100, 9, 3⟩ : Vault).cumulative_yield_per_lp ≤
      ((⟨30, 0, 0, 1, 100, 97, 9, 0⟩ : Vault), (3 : Nat)).1.cumulative_yield_per_lp) :=
  ⟨C2_accumulator_monotone.1 30 10 86400 100 ⟨30, 10, 100, 86400, 0, 0, 0, 0⟩ rfl,
   C2_accumulator_monotone.2.1 ⟨30, 0, 0, 1, 100, 100, 5, 0⟩ ⟨50, 0, 0⟩ 50
     ⟨30, 0, 0, 1, 150, 150, 5, 0⟩ ⟨100, 5, 0⟩ rfl,
   C2_accumulator_monotone.2.2.1 ⟨30, 5, 10000, 1, 100, 100, 7, 0⟩ ⟨50, 7, 0⟩ 50
     ⟨30, 5, 10000, 1, 50, 50, 7, 0⟩ ⟨0, 7, 0⟩ 50 rfl,
   C2_accumulator_monotone.2.2.2.1 1000 1 0 wOracle wOracle 6 6 wVaultIn wVaultOut
     ⟨30, 0, 0, 1, 1000000, 1001000, 0, 0⟩ ⟨30, 10, 0, 1, 1000000, 999004, 3000000, 1⟩ rfl,
   C2_accumulator_monotone.2.2.2.2.1 ⟨30, 0, 0, 1, 100, 100, 6, 0⟩ ⟨10, 6, 4⟩
     (⟨30, 0, 0, 1, 100, 100, 6, 0⟩, ⟨10, 6, 0⟩, 4) rfl,
   C2_accumulator_monotone.2.2.2.2.2 ⟨30, 0, 0, 1, 100, 100, 9, 3⟩
     (⟨30, 0, 0, 1, 100, 97, 9, 0⟩, 3) rfl⟩

/-- C6: whenever the destination vault's `current_balance` is 0, its
`protocol_fee_bps` is positive, and the price conversion itself succeeds,
the utilization path yields the maximum 10_000 bps fee and
`compute_swap_math` fails with `FeeExceeds`.  The bounds on the two bps
fields restrict the statement to the basis-point domain in which the
source's unchecked `u64` arithmetic cannot wrap (vault initialisation caps
them at 1_000 and 500). -/
theorem C6_empty_vault_fee_exceeds (amount_in : Nat) (oin oout : PriceFeedMessage)
    (din dout : Nat) (vin vout : Vault)
    (hcur : vout.current_balance = 0)
    (hproto : 0 < vout.protocol_fee_bps)
    (hbase : vout.base_fee_bps ≤ 10000)
    (hproto2 : vout.protocol_fee_bps ≤ 10000)
    (r : Nat) (hraw : raw_amount_out amount_in din dout oin oout = Except.ok r) :
    compute_swap_math amount_in oin oout din dout vin vout =
      Except.error OxediumError.FeeExceeds := by
  have hU : (10000 : Nat) ≤ U64MAX := by norm_num [U64MAX]
  have hcond : min (10000 + conf_fee_bps oin.price oin.conf oout.price oout.conf) U64MAX
      + vout.protocol_fee_bps > 10000 := by omega
  simp only [compute_swap_math, hraw, hcur]
  simp only [if_true]
  rw [if_pos hcond]

/-- C6 witness: the theorem applied to a concrete zero-balance destination
vault with a 10 bps protocol fee. -/
theorem C6_empty_vault_fee_exceeds_witness :
    compute_swap_math 1000 wOracle wOracle 6 6 wVaultIn wVaultOutEmpty =
      Except.error OxediumError.FeeExceeds :=
  C6_empty_vault_fee_exceeds 1000 wOracle wOracle 6 6 wVaultIn wVaultOutEmpty rfl
    (by decide) (by decide) (by decide) 1000 rfl

/-- C10: for every successful swap, the only input-vault field that changes
is `current_balance`, which grows by the full gross `amount_in`; the LP fee
and the protocol fee are booked exclusively on the output vault
(`cumulative_yield_per_lp` and `protocol_yield` respectively). -/
theorem C10_swap_input_frame (a m : Nat) (t : Int) (oin oout : PriceFeedMessage)
    (din dout : Nat) (vin vout vin' vout' : Vault)
    (h : swap_apply a m t oin oout din dout vin vout = Except.ok (vin', vout')) :
    vin'.current_balance = vin.current_balance + a ∧
    vin'.initial_balance = vin.initial_balance ∧
    vin'.cumulative_yield_per_lp = vin.cumulative_yield_per_lp ∧
    vin'.protocol_yield = vin.protocol_yield ∧
    vin'.base_fee_bps = vin.base_fee_bps ∧
    vin'.protocol_fee_bps = vin.protocol_fee_bps ∧
    vin'.max_exit_fee_bps = vin.max_exit_fee_bps ∧
    vin'.max_age_price = vin.max_age_price ∧
    ∃ r : SwapMathResult,
      compute_swap_math a oin oout din dout vin vout = Except.ok r ∧
      vout'.protocol_yield = vout.protocol_yield + r.protocol_fee_amount ∧
      vout'.cumulative_yield_per_lp = vout.cumulative_yield_per_lp +
        (if 0 < vout.initial_balance then
          r.lp_fee_amount * SCALE / vout.initial_balance else 0) := by
  obtain ⟨hvin, r, hr, hvout, hle⟩ :=
    swap_apply_ok a m t oin oout din dout vin vout vin' vout' h
  subst hvin
  subst hvout
  exact ⟨rfl, rfl, rfl, rfl, rfl, rfl, rfl, rfl, r, hr, rfl, rfl⟩

/-- C10 witness: the theorem applied to a concrete successful balanced swap
(1000 units in, 996 out, LP fee 3, protocol fee 1). -/
theorem C10_swap_input_frame_witness :
    (1001000 : Nat) = 1000000 + 1000 ∧ (1000000 : Nat) = 1000000 ∧ (0 : Nat) = 0 ∧
    (0 : Nat) = 0 ∧ (30 : Nat) = 30 ∧ (0 : Nat) = 0 ∧ (0 : Nat) = 0 ∧ (1 : Nat) = 1 ∧
    ∃ r : SwapMathResult,
      compute_swap_math 1000 wOracle wOracle 6 6 wVaultIn wVaultOut = Except.ok r ∧
      (1 : Nat) = 0 + r.protocol_fee_amount ∧
      (3000000 : Nat) = 0 +
        (if 0 < wVaultOut.initial_balance then
          r.lp_fee_amount * SCALE / wVaultOut.initial_balance else 0) :=
  C10_swap_input_frame 1000 1 0 wOracle wOracle 6 6 wVaultIn wVaultOut
    ⟨30, 0, 0, 1, 1000000, 1001000, 0, 0⟩ ⟨30, 10, 0, 1, 1000000, 999004, 3000000, 1⟩ rfl

/-- C3 (amended): the same-decimals, same-observation round-trip
`raw_amount_out amount d d obs obs` returns `amount` exactly, provided the
intermediate arithmetic is lossless: `d ≤ 12` (so the fixed-point scaling
`amount * SCALE / 10^d` is exact), the exponent magnitude is within the
supported 38, and — writing `x = amount * 10^(12-d)` for the fixed-point
value — either the exponent is negative and `10^|exp|` divides `x * price`
with `x * price` within `u128`, or the exponent is non-negative and
`x * price * 10^exp` is within `u128`. -/
theorem C3_roundtrip_identity (amount d : Nat) (obs : PriceFeedMessage)
    (hamt : amount ≤ U64MAX) (hd : d ≤ 12) (hp : 0 < obs.price)
    (hexp : if obs.exponent < 0
      then obs.exponent.natAbs ≤ 38 ∧
        10 ^ obs.exponent.natAbs ∣ amount * 10 ^ (12 - d) * obs.price.toNat ∧
        amount * 10 ^ (12 - d) * obs.price.toNat ≤ U128MAX
      else obs.exponent.toNat ≤ 38 ∧
        amount * 10 ^ (12 - d) * obs.price.toNat * 10 ^ obs.exponent.toNat ≤ U128MAX) :
    raw_amount_out amount d d obs obs = Except.ok amount := by
  have hppos : 0 < obs.price.toNat := by omega
  have hpne : ¬ obs.price.toNat = 0 := by omega
  have hneg : ¬ obs.price ≤ 0 := by omega
  have hm1 : amount * SCALE ≤ U128MAX := by
    have h1 : amount * SCALE ≤ U64MAX * SCALE := Nat.mul_le_mul_right _ hamt
    have h2 : U64MAX * SCALE ≤ U128MAX := by norm_num [U64MAX, SCALE, U128MAX]
    omega
  have hfp : amount * SCALE / 10 ^ d = amount * 10 ^ (12 - d) := by
    have hS : SCALE = 10 ^ (12 - d) * 10 ^ d := by
      rw [← pow_add]
      have h12 : 12 - d + d = 12 := by omega
      rw [h12]
      norm_num [SCALE]
    rw [hS, ← Nat.mul_assoc]
    exact Nat.mul_div_cancel _ (pow_pos (by norm_num) d)
  have hxd : amount * 10 ^ (12 - d) * 10 ^ d = amount * SCALE := by
    rw [Nat.mul_assoc, ← pow_add]
    have h12 : 12 - d + d = 12 := by omega
    rw [h12]
    norm_num [SCALE]
  have hout : amount * SCALE / SCALE = amount :=
    Nat.mul_div_cancel _ (by norm_num [SCALE])
  by_cases he : obs.exponent < 0
  · rw [if_pos he] at hexp
    obtain ⟨h38, hdvd, hb⟩ := hexp
    have h38n : ¬ obs.exponent.natAbs > 38 := by omega
    have hdm : amount * 10 ^ (12 - d) * obs.price.toNat / 10 ^ obs.exponent.natAbs
        * 10 ^ obs.exponent.natAbs = amount * 10 ^ (12 - d) * obs.price.toNat :=
      Nat.div_mul_cancel hdvd
    have hxp : amount * 10 ^ (12 - d) * obs.price.toNat / obs.price.toNat
        = amount * 10 ^ (12 - d) := Nat.mul_div_cancel _ hppos
    simp only [raw_amount_out, apply_exponent_mul, apply_exponent_div, pow10,
      checked_mul_u128, hneg, or_self, hfp, he, h38n, hb, hm1, hpne, hdm, hxp, hxd,
      hout, hamt, if_true, if_false, ite_true, ite_false, gt_iff_lt, not_false_iff]
  · rw [if_neg he] at hexp
    obtain ⟨h38, hb2⟩ := hexp
    have h38n : ¬ obs.exponent.toNat > 38 := by omega
    have hxple : amount * 10 ^ (12 - d) * obs.price.toNat ≤ U128MAX := by
      have h10 : 0 < 10 ^ obs.exponent.toNat := pow_pos (by norm_num) _
      have hmono := Nat.le_mul_of_pos_right
        (amount * 10 ^ (12 - d) * obs.price.toNat) h10
      omega
    have hq1 : amount * 10 ^ (12 - d) * obs.price.toNat * 10 ^ obs.exponent.toNat
        / obs.price.toNat = amount * 10 ^ (12 - d) * 10 ^ obs.exponent.toNat := by
      rw [show amount * 10 ^ (12 - d) * obs.price.toNat * 10 ^ obs.exponent.toNat
          = amount * 10 ^ (12 - d) * 10 ^ obs.exponent.toNat * obs.price.toNat by ring]
      exact Nat.mul_div_cancel _ hppos
    have hq2 : amount * 10 ^ (12 - d) * 10 ^ obs.exponent.toNat
        / 10 ^ obs.exponent.toNat = amount * 10 ^ (12 - d) :=
      Nat.mul_div_cancel _ (pow_pos (by norm_num) _)
    simp only [raw_amount_out, apply_exponent_mul, apply_exponent_div, pow10,
      checked_mul_u128, hneg, or_self, hfp, he, h38n, hb2, hxple, hm1, hpne, hq1, hq2,
      hxd, hout, hamt, if_true, if_false, ite_true, ite_false, gt_iff_lt, not_false_iff]

/-- C3 witness: the theorem applied to 1 SOL (10^9 base units, 9 decimals)
against the observation `price = 10^10, exponent = -8` (i.e. $100). -/
theorem C3_roundtrip_identity_witness :
    raw_amount_out 1000000000 9 9 ⟨10000000000, 0, -8, 0⟩ ⟨10000000000, 0, -8, 0⟩ =
      Except.ok 1000000000 :=
  C3_roundtrip_identity 1000000000 9 ⟨10000000000, 0, -8, 0⟩ (by decide) (by decide)
    (by decide) (by decide)

end Oxedium
